import Mathlib

/-!
# Verification of the `McpBridge` stdio client (src/mcp-bridge.ts)

Shallow embedding of the MCP stdio bridge: a `BridgeState` records the
mutable fields of the `McpBridge` class (`pending`, `ready`, `retries`,
`stopped`, plus booleans standing for `proc !== null`, `proc.stdin.writable`
and `rl !== null`), and each method is a Lean function from state to state
together with the list of externally observable events it performs
(promise settlements, stream writes, emitted events, timer waits, process
spawns/kills).  JavaScript values flowing through `handleLine` are embedded
as a `Json` inductive with JS-faithful property access (throwing on `null`),
truthiness, and string coercion.
-/

namespace McpBridge

/-- A JSON value, as produced by `JSON.parse` on a line of subprocess output. -/
inductive Json where
  | null
  | bool (b : Bool)
  | num (n : Int)
  | str (s : String)
  | arr (elems : List Json)
  | obj (fields : List (String × Json))
deriving Repr

/-- JS property access `v[k]`: throws a `TypeError` when the base is `null`,
yields `undefined` (here `none`) on any other non-object base, and looks the
key up in the field list of an object. -/
def jsGet : Json → String → Except String (Option Json)
  | .null, k => .error ("TypeError: Cannot read properties of null (reading " ++ k ++ ")")
  | .obj fields, k => .ok (fields.lookup k)
  | _, _ => .ok none

/-- JS optional-chained access `v?.[k]`: never throws; `null`/non-objects
give `undefined`. -/
def jsGetOpt : Json → String → Option Json
  | .obj fields, k => fields.lookup k
  | _, _ => none

/-- Optional chaining whose base may itself be `undefined`. -/
def jsGetOptU (v : Option Json) (k : String) : Option Json :=
  match v with
  | none => none
  | some j => jsGetOpt j k

/-- JS truthiness of a possibly-`undefined` value (`!v` is `!jsTruthy v`). -/
def jsTruthy : Option Json → Bool
  | none => false
  | some .null => false
  | some (.bool b) => b
  | some (.num n) => n != 0
  | some (.str s) => s != ""
  | some (.arr _) => true
  | some (.obj _) => true

mutual
/-- JS `String(v)` coercion. -/
def jsToString : Json → String
  | .null => "null"
  | .bool b => if b then "true" else "false"
  | .num n => toString n
  | .str s => s
  | .arr xs => jsToStringList xs
  | .obj _ => "[object Object]"

/-- JS `String` of an array joins element strings with commas. -/
def jsToStringList : List Json → String
  | [] => ""
  | [x] => jsToString x
  | x :: y :: xs => jsToString x ++ "," ++ jsToStringList (y :: xs)
end

/-- JS template-literal interpolation of a possibly-`undefined` value. -/
def jsToStringU : Option Json → String
  | none => "undefined"
  | some j => jsToString j

/-- Externally observable actions of the bridge. -/
inductive Event where
  | settleResolve (reqId : Nat) (result : Option Json)
  | settleReject (reqId : Nat) (message : String)
  | writeReq (token : String) (method : String) (params : Json)
  | writeNotif (method : String) (params : Json)
  | emitLog (line : String)
  | emitError (message : String)
  | emitReady (serverInfo : Option Json)
  | waitMs (ms : Nat)
  | spawnProc
  | runHandshake
  | killProc
  | closeReader
deriving Repr

/-- The mutable state of one `McpBridge` instance.  `pending` is the
`Map` from correlation token to the in-flight request's promise, here
identified by a `Nat`; insertion order is kept, mirroring a JS `Map`. -/
structure BridgeState where
  pending : List (String × Nat)
  ready : Bool
  retries : Nat
  stopped : Bool
  procLive : Bool
  stdinWritable : Bool
  rlLive : Bool
deriving Repr, DecidableEq

/-- `this.proc?.stdin?.writable` -/
def writable (s : BridgeState) : Bool :=
  s.procLive && s.stdinWritable

/-- `isReady()`: `this.ready && this.proc !== null && !this.stopped`. -/
def isReady (s : BridgeState) : Bool :=
  s.ready && s.procLive && !s.stopped

/-- JS `Map.delete`: removes the entry with the given key. -/
def mapDelete (m : List (String × Nat)) (k : String) : List (String × Nat) :=
  m.filter (fun p => p.1 != k)

/-- JS `Map.set`: overwrites in place when the key exists, appends otherwise. -/
def mapSet (m : List (String × Nat)) (k : String) (v : Nat) : List (String × Nat) :=
  if (m.lookup k).isSome then m.map (fun p => if p.1 = k then (k, v) else p)
  else m ++ [(k, v)]

def MAX_RETRIES : Nat := 3
def RESTART_DELAY_MS : Nat := 1000

/-- Outcome of one `request()` call for the issuing caller. -/
inductive ReqOutcome where
  | registered
  | rejectedSync (message : String)
deriving Repr, DecidableEq

/-- `request(method, params)`, with the freshly generated correlation token
(`randomUUID()`) and the identity of the caller's promise passed explicitly:
rejects synchronously when `this.proc?.stdin?.writable` is falsy, otherwise
registers the pending entry and writes the serialized request line. -/
def request (token : String) (reqId : Nat) (method : String) (params : Json)
    (s : BridgeState) : BridgeState × List Event × ReqOutcome :=
  if writable s then
    ({ s with pending := mapSet s.pending token reqId },
     [.writeReq token method params], .registered)
  else
    (s, [], .rejectedSync "MCP process not running")

/-- `notify(method, params)`: fire-and-forget, silently dropped when the
input stream is not writable. -/
def notify (method : String) (params : Json) (s : BridgeState) : List Event :=
  if writable s then [.writeNotif method params] else []

/-- `stop()`: sets the stopped flag, clears readiness, rejects all pending
calls with "Bridge stopped", closes the readline interface when open, and
kills the process when present. -/
def stop (s : BridgeState) : BridgeState × List Event :=
  let rej := s.pending.map (fun p => Event.settleReject p.2 "Bridge stopped")
  let closeEvts : List Event := if s.rlLive then [.closeReader] else []
  let killEvts : List Event := if s.procLive then [.killProc] else []
  ({ s with stopped := true, ready := false, pending := [],
            rlLive := false, procLive := false },
   rej ++ closeEvts ++ killEvts)

/-- The correlation token `handleLine` extracts from a parsed message —
the `if (!msg.id) return; const id = String(msg.id);` steps: `String(msg.id)`
when `msg.id` is truthy, `none` when the line is dropped for lacking a
token, `.error` when the access throws (base is a parsed `null`). -/
def lineToken (msg : Json) : Except String (Option String) :=
  match jsGet msg "id" with
  | .error e => .error e
  | .ok idv =>
    if jsTruthy idv = false then .ok none
    else .ok (some (jsToString (idv.getD .null)))

/-- `handleLine(line)`, applied to the result of `JSON.parse(line)` —
`none` when parsing threw (the `catch` swallows it).  Returns `.error`
when the handler itself would throw a JS exception (property access on a
parsed `null`), otherwise the updated state and settlement events. -/
def handleLine (parsed : Option Json) (s : BridgeState) :
    Except String (BridgeState × List Event) :=
  match parsed with
  | none => .ok (s, [])
  | some msg =>
    match lineToken msg with
    | .error e => .error e
    | .ok none => .ok (s, [])
    | .ok (some id) =>
      match s.pending.lookup id with
      | none => .ok (s, [])
      | some reqId =>
        let s' := { s with pending := mapDelete s.pending id }
        match jsGet msg "error" with
        | .error e => .error e
        | .ok errv =>
          if jsTruthy errv then
            .ok (s', [.settleReject reqId
              ("MCP error " ++ jsToStringU (jsGetOptU errv "code") ++ ": "
                ++ jsToStringU (jsGetOptU errv "message"))])
          else
            match jsGet msg "result" with
            | .error e => .error e
            | .ok resv => .ok (s', [.settleResolve reqId resv])

/-- Sequential intake of a list of parsed lines; an uncaught exception
stops all further processing (the Node process dies). -/
def handleLines : List (Option Json) → BridgeState → BridgeState × List Event
  | [], s => (s, [])
  | l :: ls, s =>
    match handleLine l s with
    | .error _ => (s, [])
    | .ok (s', evts) =>
      let r := handleLines ls s'
      (r.1, evts ++ r.2)

/-- The reject reason `rejectAll` uses inside `handleCrash`. -/
def crashRejectMsg (errMsg : String) : String :=
  "MCP process crashed: " ++ errMsg

/-- The diagnostic log line `handleCrash` emits on a retry attempt. -/
def retryLogMsg (n : Nat) : String :=
  "MCP process crashed, retry " ++ toString n ++ "/" ++ toString MAX_RETRIES ++ "..."

/-- The terminal error message after retry exhaustion. -/
def exhaustedMsg (errMsg : String) : String :=
  "MCP bridge failed after " ++ toString MAX_RETRIES ++ " retries: " ++ errMsg

/-- First, synchronous phase of `handleCrash(err)`: up to and including the
back-off `setTimeout`; the continuation after the wait is
`handleCrashResume`.  Clears readiness, rejects all pending calls with
the crash reason, and either emits the terminal error (budget exhausted)
or increments the retry counter, logs the attempt and schedules the wait. -/
def handleCrash (errMsg : String) (s : BridgeState) : BridgeState × List Event :=
  let rej := s.pending.map (fun p => Event.settleReject p.2 (crashRejectMsg errMsg))
  let s1 := { s with ready := false, pending := [] }
  if MAX_RETRIES ≤ s1.retries then
    (s1, rej ++ [.emitError (exhaustedMsg errMsg)])
  else
    ({ s1 with retries := s1.retries + 1 },
     rej ++ [.emitLog (retryLogMsg (s1.retries + 1)), .waitMs RESTART_DELAY_MS])

/-- Continuation of `handleCrash` after the back-off wait: re-spawn and
re-run the handshake unless `stop()` has set the stopped flag meanwhile. -/
def handleCrashResume (s : BridgeState) : List Event :=
  if s.stopped then [] else [.spawnProc, .runHandshake]

/-- The string interpolation of the child's exit `code` (`number | null`). -/
def codeStr : Option Int → String
  | none => "null"
  | some n => toString n

/-- The `exit` listener installed by `spawn()`: a crash only when not
stopped and the code is not `0`. -/
def exitHandler (code : Option Int) (s : BridgeState) : BridgeState × List Event :=
  if !s.stopped && code != some 0 then
    handleCrash ("MCP process exited with code " ++ codeStr code) s
  else (s, [])

/-- The `error` listener installed by `spawn()`. -/
def errorHandler (errMsg : String) (s : BridgeState) : BridgeState × List Event :=
  if !s.stopped then handleCrash errMsg s else (s, [])

/-- A whole crash episode in the scenario where every re-spawned process
crashes again immediately with the same error: `handleCrash` reached anew
after each restart until the budget is exhausted.  Mirrors `handleCrash`
with its recursive re-entry from the `catch` around `spawn`/`initialize`. -/
def crashEpisode (errMsg : String) (s : BridgeState) : BridgeState × List Event :=
  let rej := s.pending.map (fun p => Event.settleReject p.2 (crashRejectMsg errMsg))
  if MAX_RETRIES ≤ s.retries then
    ({ s with ready := false, pending := [] },
     rej ++ [.emitError (exhaustedMsg errMsg)])
  else
    let s2 : BridgeState :=
      { s with ready := false, pending := [], retries := s.retries + 1 }
    let evts := rej ++ [Event.emitLog (retryLogMsg (s.retries + 1)),
                        Event.waitMs RESTART_DELAY_MS]
    if s2.stopped then (s2, evts)
    else
      let r := crashEpisode errMsg s2
      (r.1, evts ++ [Event.spawnProc, Event.runHandshake] ++ r.2)
termination_by MAX_RETRIES + 1 - s.retries
decreasing_by
  simp only [MAX_RETRIES] at *
  omega

/-- The params object of the `initialize` request sent by `initialize()`. -/
def initParams (clientVersion : String) : Json :=
  .obj [("protocolVersion", .str "2024-11-05"),
        ("capabilities", .obj []),
        ("clientInfo", .obj [("name", .str "openclaw-sage-plugin"),
                             ("version", .str clientVersion)])]

/-- `initialize()` after the `await` of its `initialize` request: on a
rejection nothing further runs and the rejection propagates; on success
the `notifications/initialized` notification is sent, the ready flag set,
the retry counter reset, and `ready` emitted with `result?.serverInfo`. -/
def initializeResume (outcome : Except String (Option Json)) (s : BridgeState) :
    BridgeState × List Event × Except String Unit :=
  match outcome with
  | .error e => (s, [], .error e)
  | .ok result =>
    ({ s with ready := true, retries := 0 },
     notify "notifications/initialized" (Json.obj []) s
       ++ [.emitReady (jsGetOptU result "serverInfo")],
     .ok ())

/-- One content block of a `tools/call` result, as typed in the source. -/
structure ContentBlock where
  type : String
  text : Option String
deriving Repr, DecidableEq

/-- The shape `callTool` casts the `tools/call` result to. -/
structure ToolCallResult where
  content : Option (List ContentBlock)
  isError : Option Bool
deriving Repr, DecidableEq

/-- The params object of the `tools/call` request sent by `callTool`. -/
def callToolParams (name : String) (args : Json) : Json :=
  .obj [("name", .str name), ("arguments", args)]

/-- `callTool` after its request resolved: throw when `result?.isError` is
truthy, with message `result.content?.map(c => c.text ?? "").join("\n")
?? "MCP tool error"`; otherwise return the result untouched. -/
def callTool (r : ToolCallResult) : Except String ToolCallResult :=
  if r.isError.getD false then
    .error ((r.content.map
      (fun bs => String.intercalate "\n" (bs.map fun c => c.text.getD ""))).getD
      "MCP tool error")
  else .ok r

/-- The reqIds settled (resolved or rejected) in an event trace. -/
def settledIds (evts : List Event) : List Nat :=
  evts.filterMap fun e =>
    match e with
    | .settleResolve r _ => some r
    | .settleReject r _ => some r
    | _ => none

/-- The pending-table invariant: tokens are pairwise distinct and each
token corresponds to exactly one in-flight request (request identities are
pairwise distinct too). -/
def WellFormed (s : BridgeState) : Prop :=
  (s.pending.map Prod.fst).Nodup ∧ (s.pending.map Prod.snd).Nodup

instance (s : BridgeState) : Decidable (WellFormed s) := by
  unfold WellFormed; infer_instance

/-! ## Helper lemmas about association-list lookup -/

theorem lookup_cons {k a : String} {v : Nat} {tl : List (String × Nat)} :
    ((k, v) :: tl).lookup a = if a = k then some v else tl.lookup a := by
  cases h : a == k <;> simp [List.lookup, h] <;> simp_all

theorem mem_of_lookup {m : List (String × Nat)} {t : String} {r : Nat}
    (h : m.lookup t = some r) : (t, r) ∈ m := by
  induction m with
  | nil => simp [List.lookup] at h
  | cons a tl ih =>
    obtain ⟨k, v⟩ := a
    rw [lookup_cons] at h
    by_cases hk : t = k
    · simp [hk] at h; subst hk; simp [h]
    · simp [hk] at h; exact List.mem_cons_of_mem _ (ih h)

theorem lookup_of_mem_nodup {m : List (String × Nat)} {t : String} {r : Nat}
    (hnd : (m.map Prod.fst).Nodup) (hm : (t, r) ∈ m) : m.lookup t = some r := by
  induction m with
  | nil => cases hm
  | cons a tl ih =>
    obtain ⟨k, v⟩ := a
    rw [List.map_cons, List.nodup_cons] at hnd
    rw [lookup_cons]
    rcases List.mem_cons.mp hm with h | h
    · cases h; simp
    · have hk : t ≠ k := by
        intro he; subst he
        exact hnd.1 (List.mem_map.mpr ⟨(t, r), h, rfl⟩)
      simp [hk]
      exact ih hnd.2 h

theorem mapDelete_sublist (m : List (String × Nat)) (k : String) :
    (mapDelete m k).Sublist m :=
  List.filter_sublist m

theorem mem_mapDelete {m : List (String × Nat)} {k : String} {p : String × Nat} :
    p ∈ mapDelete m k ↔ p ∈ m ∧ p.1 ≠ k := by
  simp [mapDelete, List.mem_filter]

/-! ## Helper lemmas about `handleLine` -/

/-- Case analysis on a successful `handleLine`: either the line was dropped
(no token, or a token matching no pending entry) and nothing changed, or a
token matching a live entry was found and exactly that entry was settled
and removed. -/
theorem handleLine_ok_elim {l : Option Json} {s s' : BridgeState} {evts : List Event}
    (h : handleLine l s = .ok (s', evts)) :
    (s' = s ∧ evts = []) ∨
    (∃ msg t r, l = some msg ∧ lineToken msg = .ok (some t) ∧
      s.pending.lookup t = some r ∧
      s' = { s with pending := mapDelete s.pending t } ∧
      settledIds evts = [r]) := by
  cases l with
  | none =>
    simp [handleLine] at h
    exact Or.inl ⟨h.1.symm, h.2⟩
  | some msg =>
    simp only [handleLine] at h
    cases htk : lineToken msg with
    | error e => rw [htk] at h; cases h
    | ok tk =>
      rw [htk] at h
      cases tk with
      | none =>
        simp at h
        exact Or.inl ⟨h.1.symm, h.2⟩
      | some t =>
        cases hlk : s.pending.lookup t with
        | none => simp [hlk] at h; exact Or.inl ⟨h.1.symm, h.2⟩
        | some r =>
          simp only [hlk] at h
          refine Or.inr ⟨msg, t, r, rfl, htk, hlk, ?_⟩
          cases herr : jsGet msg "error" with
          | error e => rw [herr] at h; cases h
          | ok errv =>
            rw [herr] at h
            by_cases htr : jsTruthy errv
            · simp [htr] at h
              exact ⟨h.1.symm, by simp [← h.2, settledIds]⟩
            · simp [htr] at h
              cases hres : jsGet msg "result" with
              | error e => rw [hres] at h; cases h
              | ok resv =>
                rw [hres] at h
                simp at h
                exact ⟨h.1.symm, by simp [← h.2, settledIds]⟩

/-- A message whose extracted token exists is a parsed JSON object. -/
theorem lineToken_some_obj {msg : Json} {t : String}
    (h : lineToken msg = .ok (some t)) : ∃ fields, msg = .obj fields := by
  cases msg
  case obj fields => exact ⟨fields, rfl⟩
  all_goals simp [lineToken, jsGet, jsTruthy] at h

theorem settledIds_append (a b : List Event) :
    settledIds (a ++ b) = settledIds a ++ settledIds b :=
  List.filterMap_append a b _

theorem handleLine_pending_sublist {l : Option Json} {s s' : BridgeState}
    {evts : List Event} (h : handleLine l s = .ok (s', evts)) :
    s'.pending.Sublist s.pending := by
  rcases handleLine_ok_elim h with ⟨rfl, -⟩ | ⟨msg, t, r, -, -, -, rfl, -⟩
  · exact List.Sublist.refl _
  · exact mapDelete_sublist _ _

theorem handleLine_wf {l : Option Json} {s s' : BridgeState} {evts : List Event}
    (h : handleLine l s = .ok (s', evts)) (hwf : WellFormed s) : WellFormed s' := by
  have hsub := handleLine_pending_sublist h
  exact ⟨List.Nodup.sublist (List.Sublist.map _ hsub) hwf.1,
         List.Nodup.sublist (List.Sublist.map _ hsub) hwf.2⟩

theorem handleLine_settledIds_len {l : Option Json} {s s' : BridgeState}
    {evts : List Event} (h : handleLine l s = .ok (s', evts)) :
    (settledIds evts).length ≤ 1 := by
  rcases handleLine_ok_elim h with ⟨-, rfl⟩ | ⟨msg, t, r, -, -, -, -, hset⟩
  · simp [settledIds]
  · rw [hset]; simp

theorem handleLine_not_settled {l : Option Json} {s s' : BridgeState}
    {evts : List Event} {r : Nat} (h : handleLine l s = .ok (s', evts))
    (hr : r ∉ s.pending.map Prod.snd) :
    r ∉ settledIds evts ∧ r ∉ s'.pending.map Prod.snd := by
  rcases handleLine_ok_elim h with ⟨rfl, rfl⟩ | ⟨msg, t, r', -, -, hlk, rfl, hset⟩
  · exact ⟨by simp [settledIds], hr⟩
  · constructor
    · rw [hset]
      simp only [List.mem_singleton]
      intro he
      subst he
      exact hr (List.mem_map.mpr ⟨(t, r), mem_of_lookup hlk, rfl⟩)
    · intro hmem
      apply hr
      rcases List.mem_map.mp hmem with ⟨p, hp, rfl⟩
      exact List.mem_map.mpr ⟨p, (mem_mapDelete.mp hp).1, rfl⟩

theorem handleLine_settled_removed {l : Option Json} {s s' : BridgeState}
    {evts : List Event} {r : Nat} (h : handleLine l s = .ok (s', evts))
    (hwf : WellFormed s) (hr : r ∈ settledIds evts) :
    r ∉ s'.pending.map Prod.snd := by
  rcases handleLine_ok_elim h with ⟨rfl, rfl⟩ | ⟨msg, t, r', -, -, hlk, rfl, hset⟩
  · simp [settledIds] at hr
  · rw [hset] at hr
    simp only [List.mem_singleton] at hr
    intro hmem
    rcases List.mem_map.mp hmem with ⟨⟨t', r''⟩, hp, he⟩
    simp only at he
    have h1 := mem_mapDelete.mp hp
    have h2 : (t, r') ∈ s.pending := mem_of_lookup hlk
    have h3 := List.inj_on_of_nodup_map hwf.2 h1.1 h2 (by simp [he, hr])
    exact h1.2 (congrArg Prod.fst h3)

theorem handleLines_count_zero (ls : List (Option Json)) (s : BridgeState)
    {r : Nat} (hr : r ∉ s.pending.map Prod.snd) :
    (settledIds (handleLines ls s).2).count r = 0 := by
  induction ls generalizing s with
  | nil => simp [handleLines, settledIds]
  | cons l ls ih =>
    simp only [handleLines]
    cases hh : handleLine l s with
    | error e => simp [settledIds]
    | ok p =>
      obtain ⟨s', evts⟩ := p
      have hns := handleLine_not_settled hh hr
      simp only [settledIds_append, List.count_append]
      rw [List.count_eq_zero.mpr hns.1, ih s' hns.2]

theorem handleLines_count_le_one (ls : List (Option Json)) (s : BridgeState)
    (hwf : WellFormed s) (r : Nat) :
    (settledIds (handleLines ls s).2).count r ≤ 1 := by
  induction ls generalizing s with
  | nil => simp [handleLines, settledIds]
  | cons l ls ih =>
    simp only [handleLines]
    cases hh : handleLine l s with
    | error e => simp [settledIds]
    | ok p =>
      obtain ⟨s', evts⟩ := p
      have hwf' := handleLine_wf hh hwf
      simp only [settledIds_append, List.count_append]
      by_cases hrs : r ∈ settledIds evts
      · have h0 := handleLines_count_zero ls s' (handleLine_settled_removed hh hwf hrs)
        have h1 : (settledIds evts).count r ≤ 1 :=
          le_trans (List.count_le_length _ _) (handleLine_settledIds_len hh)
        omega
      · rw [List.count_eq_zero.mpr hrs]
        simpa using ih s' hwf'

theorem handleLine_unknown_token {msg : Json} {t : String} {s : BridgeState}
    (htk : lineToken msg = .ok (some t)) (hlk : s.pending.lookup t = none) :
    handleLine (some msg) s = .ok (s, []) := by
  simp only [handleLine, htk, hlk]

theorem handleLine_live_token_settles {msg : Json} {t : String} {r : Nat}
    {s : BridgeState} (hwf : WellFormed s) (htk : lineToken msg = .ok (some t))
    (hm : (t, r) ∈ s.pending) :
    ∃ evts, handleLine (some msg) s =
        .ok ({ s with pending := mapDelete s.pending t }, evts) ∧
      settledIds evts = [r] := by
  obtain ⟨fields, rfl⟩ := lineToken_some_obj htk
  have hlk : s.pending.lookup t = some r := lookup_of_mem_nodup hwf.1 hm
  by_cases he : jsTruthy (fields.lookup "error") = true
  · refine ⟨[.settleReject r
      ("MCP error " ++ jsToStringU (jsGetOptU (fields.lookup "error") "code") ++ ": "
        ++ jsToStringU (jsGetOptU (fields.lookup "error") "message"))], ?_, ?_⟩
    · simp [handleLine, htk, hlk, jsGet, he]
    · simp [settledIds]
  · refine ⟨[.settleResolve r (fields.lookup "result")], ?_, ?_⟩
    · simp [handleLine, htk, hlk, jsGet, he]
    · simp [settledIds]

theorem lookup_eq_none_of_not_mem_keys {m : List (String × Nat)} {k : String}
    (h : k ∉ m.map Prod.fst) : m.lookup k = none := by
  cases hl : m.lookup k with
  | none => rfl
  | some v => exact absurd (List.mem_map.mpr ⟨(k, v), mem_of_lookup hl, rfl⟩) h

/-! ## Claim theorems -/

/-- **C1**: settlements are correlated strictly by token: a line whose token
matches no live pending entry changes nothing; a settlement only ever
happens at the line whose token is the settled request's own, and removes
that entry; the line carrying a live token settles exactly that one
request; across any sequence of incoming lines each request is settled at
most once; registering a request under a fresh token appends exactly one
entry for it and keeps the pending-table invariant (each live token ↦
exactly one in-flight request, no reuse while live), which line intake
also preserves. -/
theorem correlation_exactly_once (s : BridgeState) (hwf : WellFormed s) :
    (∀ msg t, lineToken msg = .ok (some t) → s.pending.lookup t = none →
        handleLine (some msg) s = .ok (s, [])) ∧
    (∀ l s' evts r, handleLine l s = .ok (s', evts) → r ∈ settledIds evts →
        ∃ msg t, l = some msg ∧ lineToken msg = .ok (some t) ∧
          (t, r) ∈ s.pending ∧ s'.pending = mapDelete s.pending t) ∧
    (∀ msg t r, lineToken msg = .ok (some t) → (t, r) ∈ s.pending →
        ∃ evts, handleLine (some msg) s =
            .ok ({ s with pending := mapDelete s.pending t }, evts) ∧
          settledIds evts = [r]) ∧
    (∀ ls r, (settledIds (handleLines ls s).2).count r ≤ 1) ∧
    (∀ tok rid m p, tok ∉ s.pending.map Prod.fst → writable s = true →
        (request tok rid m p s).1.pending = s.pending ++ [(tok, rid)] ∧
          (rid ∉ s.pending.map Prod.snd →
            WellFormed (request tok rid m p s).1)) ∧
    (∀ l s' evts, handleLine l s = .ok (s', evts) → WellFormed s') := by
  refine ⟨?_, ?_, ?_, ?_, ?_, ?_⟩
  · intro msg t htk hlk
    exact handleLine_unknown_token htk hlk
  · intro l s' evts r h hr
    rcases handleLine_ok_elim h with ⟨rfl, rfl⟩ | ⟨msg, t, r', rfl, htk, hlk, rfl, hset⟩
    · simp [settledIds] at hr
    · rw [hset] at hr
      simp only [List.mem_singleton] at hr
      exact ⟨msg, t, rfl, htk, by rw [hr]; exact mem_of_lookup hlk, rfl⟩
  · intro msg t r htk hm
    exact handleLine_live_token_settles hwf htk hm
  · intro ls r
    exact handleLines_count_le_one ls s hwf r
  · intro tok rid m p htok hw
    have hlk : s.pending.lookup tok = none := lookup_eq_none_of_not_mem_keys htok
    have hset : mapSet s.pending tok rid = s.pending ++ [(tok, rid)] := by
      simp [mapSet, hlk]
    refine ⟨by simp [request, hw, hset], fun hrid => ?_⟩
    have h1 : ((s.pending ++ [(tok, rid)]).map Prod.fst).Nodup := by
      rw [List.map_append, List.nodup_append]
      exact ⟨hwf.1, List.nodup_singleton tok,
        fun a ha => by simp; intro he; subst he; exact absurd ha htok⟩
    have h2 : ((s.pending ++ [(tok, rid)]).map Prod.snd).Nodup := by
      rw [List.map_append, List.nodup_append]
      exact ⟨hwf.2, List.nodup_singleton rid,
        fun a ha => by simp; intro he; subst he; exact absurd ha hrid⟩
    constructor
    · simpa [request, hw, hset] using h1
    · simpa [request, hw, hset] using h2
  · intro l s' evts h
    exact handleLine_wf h hwf

/-- Witness for C1 at a concrete two-entry pending table. -/
theorem correlation_exactly_once_witness :
    WellFormed ⟨[("a", 1), ("b", 2)], true, 0, false, true, true, true⟩ ∧
    (settledIds (handleLines
        [some (.obj [("id", .str "b"), ("result", .num 7)]),
         some (.obj [("id", .str "b"), ("result", .num 8)])]
        ⟨[("a", 1), ("b", 2)], true, 0, false, true, true, true⟩).2).count 2 ≤ 1 :=
  ⟨by decide,
   (correlation_exactly_once ⟨[("a", 1), ("b", 2)], true, 0, false, true, true, true⟩
      (by decide)).2.2.2.1
     [some (.obj [("id", .str "b"), ("result", .num 7)]),
      some (.obj [("id", .str "b"), ("result", .num 8)])] 2⟩

/-- **C5**: `stop()` is idempotent — a second `stop()` performs no actions
and leaves the state fixed; `isReady()` is false after each call; every
`stop()` rejects all pending calls with "Bridge stopped" and clears the
table, closes the line reader when one is open, kills the process when one
is running, and touches no process when none is running. -/
theorem stop_idempotent (s : BridgeState) :
    stop (stop s).1 = ((stop s).1, []) ∧
    isReady (stop s).1 = false ∧
    isReady (stop (stop s).1).1 = false ∧
    (stop s).1.pending = [] ∧
    (stop s).2 = s.pending.map (fun p => Event.settleReject p.2 "Bridge stopped")
      ++ (if s.rlLive then [Event.closeReader] else [])
      ++ (if s.procLive then [Event.killProc] else []) ∧
    (s.procLive = false → Event.killProc ∉ (stop s).2) := by
  refine ⟨by simp [stop], by simp [stop, isReady], by simp [stop, isReady],
    by simp [stop], by simp [stop], ?_⟩
  intro hpl
  simp [stop, hpl]

/-- Witness for C5 on a bridge with one pending call and no live process. -/
theorem stop_idempotent_witness :
    Event.killProc ∉ (stop ⟨[("a", 1)], true, 0, false, false, true, true⟩).2 ∧
    isReady (stop ⟨[("a", 1)], true, 0, false, false, true, true⟩).1 = false :=
  ⟨(stop_idempotent ⟨[("a", 1)], true, 0, false, false, true, true⟩).2.2.2.2.2 rfl,
   (stop_idempotent ⟨[("a", 1)], true, 0, false, false, true, true⟩).2.1⟩

/-- **C6**: a line that fails to parse, or parses to an object without an
`id` field, is silently discarded: same state, no settlements, no thrown
exception (the result is `.ok`). -/
theorem malformed_line_discarded (s : BridgeState) :
    handleLine none s = .ok (s, []) ∧
    (∀ fields, fields.lookup "id" = none →
        handleLine (some (.obj fields)) s = .ok (s, [])) := by
  refine ⟨rfl, ?_⟩
  intro fields h
  simp [handleLine, lineToken, jsGet, h, jsTruthy]

/-- Witness for C6: a parse failure and an `id`-less object on a live state. -/
theorem malformed_line_discarded_witness :
    handleLine (some (.obj [("jsonrpc", .str "2.0"), ("result", .num 1)]))
        ⟨[("a", 1)], true, 0, false, true, true, true⟩
      = .ok (⟨[("a", 1)], true, 0, false, true, true, true⟩, []) :=
  (malformed_line_discarded ⟨[("a", 1)], true, 0, false, true, true, true⟩).2
    [("jsonrpc", .str "2.0"), ("result", .num 1)] rfl

/-- **C8**: when the input stream is not writable, `request` rejects that
call synchronously with "MCP process not running": the state (including
the pending table) is untouched, no write happens, and no entry is ever
registered for the call. -/
theorem request_not_writable (token : String) (reqId : Nat) (method : String)
    (params : Json) (s : BridgeState) (h : writable s = false) :
    request token reqId method params s
      = (s, [], .rejectedSync "MCP process not running") := by
  simp [request, h]

/-- Witness for C8 on a bridge whose process is gone. -/
theorem request_not_writable_witness :
    request "tok" 9 "tools/list" (.obj []) ⟨[("a", 1)], true, 0, false, false, true, true⟩
      = (⟨[("a", 1)], true, 0, false, false, true, true⟩, [],
         .rejectedSync "MCP process not running") :=
  request_not_writable "tok" 9 "tools/list" (.obj [])
    ⟨[("a", 1)], true, 0, false, false, true, true⟩ rfl

/-- **C9** (implicit): a child exit with status 0 never triggers crash
handling — even with no stop in progress, the exit handler does nothing:
no pending call is rejected, no restart happens, and `isReady()` keeps
its value (still `true` for a ready bridge whose process object remains
set). -/
theorem exit_zero_not_crash (s : BridgeState) :
    exitHandler (some 0) s = (s, []) ∧
    isReady (exitHandler (some 0) s).1 = isReady s ∧
    (exitHandler (some 0) s).1.pending = s.pending := by
  have h : exitHandler (some 0) s = (s, []) := by simp [exitHandler]
  exact ⟨h, by rw [h], by rw [h]⟩

/-- **C2**: a non-zero exit while not stopping, with retry budget left,
clears readiness, rejects every pending call with a "MCP process crashed"
failure carrying the underlying cause, increments the retry counter, logs
a line containing the attempt number ("retry n/3"), waits 1000 ms, and the
continuation after the wait re-spawns and re-runs the handshake. -/
theorem crash_rejects_and_retries (s : BridgeState) (code : Option Int)
    (hstop : s.stopped = false) (hcode : code ≠ some 0)
    (hr : s.retries < MAX_RETRIES) :
    (exitHandler code s).1.ready = false ∧
    (exitHandler code s).1.pending = [] ∧
    (exitHandler code s).1.retries = s.retries + 1 ∧
    (exitHandler code s).2
      = s.pending.map (fun p => Event.settleReject p.2
          (crashRejectMsg ("MCP process exited with code " ++ codeStr code)))
        ++ [Event.emitLog (retryLogMsg (s.retries + 1)), Event.waitMs 1000] ∧
    retryLogMsg (s.retries + 1)
      = "MCP process crashed, " ++ ("retry " ++ toString (s.retries + 1) ++ "/3")
        ++ "..." ∧
    handleCrashResume (exitHandler code s).1
      = [Event.spawnProc, Event.runHandshake] ∧
    (∀ em, (errorHandler em s).1.ready = false ∧
      (errorHandler em s).1.retries = s.retries + 1 ∧
      (errorHandler em s).2
        = s.pending.map (fun p => Event.settleReject p.2 (crashRejectMsg em))
          ++ [Event.emitLog (retryLogMsg (s.retries + 1)), Event.waitMs 1000]) := by
  have hcond : (!s.stopped && code != some 0) = true := by
    simp [hstop, bne_iff_ne, hcode]
  have hlt : ¬ MAX_RETRIES ≤ s.retries := Nat.not_le.mpr hr
  refine ⟨?_, ?_, ?_, ?_, ?_, ?_, ?_⟩
  · simp [exitHandler, hcond, handleCrash, hlt]
  · simp [exitHandler, hcond, handleCrash, hlt]
  · simp [exitHandler, hcond, handleCrash, hlt]
  · simp [exitHandler, hcond, handleCrash, hlt, RESTART_DELAY_MS]
  · have h3 : s.retries < 3 := by simpa [MAX_RETRIES] using hr
    interval_cases h : s.retries <;> decide
  · simp [exitHandler, hcond, hcode, handleCrash, hlt, handleCrashResume, hstop]
  · intro em
    refine ⟨?_, ?_, ?_⟩ <;>
      simp [errorHandler, hstop, handleCrash, hlt, RESTART_DELAY_MS]

/-- Witness for C2: non-zero exit with three pending calls and a fresh
retry counter. -/
theorem crash_rejects_and_retries_witness :
    (exitHandler (some 1)
        ⟨[("a", 1), ("b", 2), ("c", 3)], true, 0, false, true, true, true⟩).1.retries
      = 0 + 1 ∧
    handleCrashResume (exitHandler (some 1)
        ⟨[("a", 1), ("b", 2), ("c", 3)], true, 0, false, true, true, true⟩).1
      = [Event.spawnProc, Event.runHandshake] :=
  ⟨(crash_rejects_and_retries ⟨[("a", 1), ("b", 2), ("c", 3)], true, 0, false, true, true, true⟩
      (some 1) rfl (by decide) (by decide)).2.2.1,
   (crash_rejects_and_retries ⟨[("a", 1), ("b", 2), ("c", 3)], true, 0, false, true, true, true⟩
      (some 1) rfl (by decide) (by decide)).2.2.2.2.2.1⟩

/-- Recognizer for spawn events, used to count restart attempts. -/
def isSpawn : Event → Bool
  | .spawnProc => true
  | _ => false

/-- **C3**: when every restart crashes again immediately, a crash episode
starting with a zero retry counter performs exactly 3 re-spawns, logs
attempts 1/3, 2/3, 3/3, and ends with a single terminal `error` event
carrying the last error as its final action — no spawn or handshake after
it; the final retry counter is 3, and a successful handshake resets the
counter to zero. -/
theorem retry_exhaustion (errMsg : String) (s : BridgeState)
    (hr : s.retries = 0) (hs : s.stopped = false) :
    (crashEpisode errMsg s).2
      = s.pending.map (fun p => Event.settleReject p.2 (crashRejectMsg errMsg))
        ++ [Event.emitLog (retryLogMsg 1), Event.waitMs 1000,
            Event.spawnProc, Event.runHandshake,
            Event.emitLog (retryLogMsg 2), Event.waitMs 1000,
            Event.spawnProc, Event.runHandshake,
            Event.emitLog (retryLogMsg 3), Event.waitMs 1000,
            Event.spawnProc, Event.runHandshake,
            Event.emitError (exhaustedMsg errMsg)] ∧
    (crashEpisode errMsg s).2.countP isSpawn = 3 ∧
    (crashEpisode errMsg s).2.getLast? = some (.emitError (exhaustedMsg errMsg)) ∧
    (crashEpisode errMsg s).1.retries = MAX_RETRIES ∧
    (∀ res s', (initializeResume (.ok res) s').1.retries = 0) := by
  have htrace : (crashEpisode errMsg s).2
      = s.pending.map (fun p => Event.settleReject p.2 (crashRejectMsg errMsg))
        ++ [Event.emitLog (retryLogMsg 1), Event.waitMs 1000,
            Event.spawnProc, Event.runHandshake,
            Event.emitLog (retryLogMsg 2), Event.waitMs 1000,
            Event.spawnProc, Event.runHandshake,
            Event.emitLog (retryLogMsg 3), Event.waitMs 1000,
            Event.spawnProc, Event.runHandshake,
            Event.emitError (exhaustedMsg errMsg)]
      ∧ (crashEpisode errMsg s).1.retries = MAX_RETRIES := by
    obtain ⟨pnd, rdy, rt, stp, pl, sw, rl⟩ := s
    simp only at hr hs
    subst hr hs
    unfold crashEpisode
    unfold crashEpisode
    unfold crashEpisode
    unfold crashEpisode
    norm_num [MAX_RETRIES, RESTART_DELAY_MS]
  have hmap0 : (s.pending.map (fun p =>
      Event.settleReject p.2 (crashRejectMsg errMsg))).countP isSpawn = 0 := by
    rw [List.countP_eq_zero]
    intro a ha
    rcases List.mem_map.mp ha with ⟨p, -, rfl⟩
    simp [isSpawn]
  refine ⟨htrace.1, ?_, ?_, htrace.2, fun res s' => rfl⟩
  · rw [htrace.1, List.countP_append, hmap0]
    simp [isSpawn, List.countP_cons]
  · rw [htrace.1, List.getLast?_append]
    rfl

/-- Witness for C3: a fresh ready bridge with one pending call whose
subprocess keeps crashing. -/
theorem retry_exhaustion_witness :
    (crashEpisode "spawn ENOENT"
        ⟨[("a", 1)], true, 0, false, true, true, true⟩).2.countP isSpawn = 3 ∧
    (crashEpisode "spawn ENOENT"
        ⟨[("a", 1)], true, 0, false, true, true, true⟩).2.getLast?
      = some (.emitError (exhaustedMsg "spawn ENOENT")) :=
  ⟨(retry_exhaustion "spawn ENOENT" ⟨[("a", 1)], true, 0, false, true, true, true⟩
      rfl rfl).2.1,
   (retry_exhaustion "spawn ENOENT" ⟨[("a", 1)], true, 0, false, true, true, true⟩
      rfl rfl).2.2.1⟩

/-- **C4 counterexample**: a `tools/call` result with `isError: true` and an
*empty* `content` array has no textual content blocks, yet `callTool` fails
with the empty-string message rather than the generic "MCP tool error" the
claim requires when there are none. -/
theorem callTool_empty_content_cex :
    callTool ⟨some [], some true⟩ = .error "" ∧ "" ≠ "MCP tool error" :=
  ⟨rfl, by decide⟩

/-- **C4 (amended)**: `callTool` issues `tools/call` with `{name, arguments}`
and fails iff the result's `isError` is `true`; the failure message is the
newline-join of *every* content block's `text` field (a missing `text`
contributes the empty string, regardless of the block's type), or
"MCP tool error" only when the result carries no `content` array at all;
a non-failing result is returned untouched. -/
theorem callTool_spec (r : ToolCallResult) (name : String) (args : Json) :
    (∀ m, callTool r = .error m →
      r.isError = some true ∧
        ((∃ bs, r.content = some bs ∧
            m = String.intercalate "\n" (bs.map fun c => c.text.getD "")) ∨
         (r.content = none ∧ m = "MCP tool error"))) ∧
    (r.isError = some true → ∃ m, callTool r = .error m) ∧
    (r.isError ≠ some true → callTool r = .ok r) ∧
    jsGetOpt (callToolParams name args) "name" = some (.str name) ∧
    jsGetOpt (callToolParams name args) "arguments" = some args := by
  obtain ⟨content, isErr⟩ := r
  refine ⟨?_, ?_, ?_, ?_, ?_⟩
  · intro m hm
    cases isErr with
    | none => simp [callTool] at hm
    | some b =>
      cases b with
      | false => simp [callTool] at hm
      | true =>
        refine ⟨rfl, ?_⟩
        cases content with
        | none =>
          simp only [callTool] at hm
          right
          exact ⟨rfl, by simpa using hm.symm⟩
        | some bs =>
          simp only [callTool] at hm
          left
          exact ⟨bs, rfl, by simpa using hm.symm⟩
  · intro h
    subst h
    exact ⟨(content.map fun bs =>
        String.intercalate "\n" (bs.map fun c => c.text.getD "")).getD "MCP tool error",
      by simp [callTool]⟩
  · intro h
    have : isErr.getD false = false := by
      cases isErr with
      | none => rfl
      | some b => cases b with
        | false => rfl
        | true => exact absurd rfl h
    simp [callTool, this]
  · rfl
  · rfl

/-- Witness for C4's amended theorem: a clean result passes through
untouched, and the `"boom"` failure is classified as a textual-content
message. -/
theorem callTool_spec_witness :
    callTool ⟨none, none⟩ = .ok ⟨none, none⟩ ∧
    (ToolCallResult.mk (some [⟨"text", some "boom"⟩]) (some true)).isError
      = some true :=
  ⟨(callTool_spec ⟨none, none⟩ "echo" (.obj [])).2.2.1 (by decide),
   ((callTool_spec ⟨some [⟨"text", some "boom"⟩], some true⟩ "echo"
      (.obj [])).1 "boom" rfl).1⟩

/-- **C7**: the handshake request carries the protocol version
"2024-11-05", an empty capability set, and the client identity
(name "openclaw-sage-plugin" + version); only on its success are the
`notifications/initialized` notification sent, the ready flag set, the
retry counter reset to zero, and the `ready` event emitted with the
result's `serverInfo`; a failed handshake request does none of that and
propagates the failure. -/
theorem initialize_handshake (v : String) (s : BridgeState)
    (res : Option Json) (e : String) (hw : writable s = true) :
    jsGetOpt (initParams v) "protocolVersion" = some (.str "2024-11-05") ∧
    jsGetOpt (initParams v) "capabilities" = some (.obj []) ∧
    jsGetOpt (initParams v) "clientInfo"
      = some (.obj [("name", .str "openclaw-sage-plugin"), ("version", .str v)]) ∧
    (initializeResume (.ok res) s).1.ready = true ∧
    (initializeResume (.ok res) s).1.retries = 0 ∧
    (initializeResume (.ok res) s).2.1
      = [Event.writeNotif "notifications/initialized" (.obj []),
         Event.emitReady (jsGetOptU res "serverInfo")] ∧
    initializeResume (.error e) s = (s, [], .error e) ∧
    (∀ tok rid, (request tok rid "initialize" (initParams v) s).2.1
      = [Event.writeReq tok "initialize" (initParams v)]) := by
  refine ⟨rfl, rfl, rfl, rfl, rfl, ?_, rfl, ?_⟩
  · simp [initializeResume, notify, hw]
  · intro tok rid
    simp [request, hw]

/-- Witness for C7 on a writable ready-to-handshake bridge. -/
theorem initialize_handshake_witness :
    (initializeResume (.ok (some (.obj [("serverInfo", .str "sage")])))
        ⟨[], false, 2, false, true, true, true⟩).2.1
      = [Event.writeNotif "notifications/initialized" (.obj []),
         Event.emitReady (some (.str "sage"))] ∧
    (initializeResume (.ok (some (.obj [("serverInfo", .str "sage")])))
        ⟨[], false, 2, false, true, true, true⟩).1.retries = 0 :=
  ⟨(initialize_handshake "0.0.0" ⟨[], false, 2, false, true, true, true⟩
      (some (.obj [("serverInfo", .str "sage")])) "e" rfl).2.2.2.2.2.1,
   (initialize_handshake "0.0.0" ⟨[], false, 2, false, true, true, true⟩
      (some (.obj [("serverInfo", .str "sage")])) "e" rfl).2.2.2.2.1⟩

/-- **C10** (implicit): once `stop()` has set the stopped flag, the
crash-recovery continuation after the back-off wait spawns nothing: the
post-wait check sees the flag and performs neither spawn nor handshake;
and no operation other than `start()` ever clears the flag (`handleCrash`,
`handleLine` and `request` all preserve it). -/
theorem stopped_blocks_respawn (s : BridgeState) (errMsg : String) :
    (stop s).1.stopped = true ∧
    handleCrashResume (stop s).1 = [] ∧
    (∀ s', s'.stopped = true → handleCrashResume s' = []) ∧
    (handleCrash errMsg s).1.stopped = s.stopped ∧
    (∀ l s' t evts, handleLine l s' = .ok (t, evts) → t.stopped = s'.stopped) ∧
    (∀ tok rid m p, (request tok rid m p s).1.stopped = s.stopped) := by
  refine ⟨by simp [stop], by simp [handleCrashResume, stop], ?_, ?_, ?_, ?_⟩
  · intro s' h
    simp [handleCrashResume, h]
  · by_cases h : MAX_RETRIES ≤ s.retries <;> simp [handleCrash, h]
  · intro l s' t evts h
    rcases handleLine_ok_elim h with ⟨rfl, -⟩ | ⟨msg, tk, r, -, -, -, rfl, -⟩ <;> rfl
  · intro tok rid m p
    by_cases h : writable s <;> simp [request, h]

/-- Witness for C10: a stop during the back-off of a crashing bridge. -/
theorem stopped_blocks_respawn_witness :
    handleCrashResume (stop ⟨[], false, 1, false, true, true, true⟩).1 = [] ∧
    handleCrashResume ⟨[], false, 1, true, false, false, false⟩ = [] :=
  ⟨(stopped_blocks_respawn ⟨[], false, 1, false, true, true, true⟩ "boom").2.1,
   (stopped_blocks_respawn ⟨[], false, 1, false, true, true, true⟩ "boom").2.2.1
     ⟨[], false, 1, true, false, false, false⟩ rfl⟩

end McpBridge
